import Mathlib

/-!
# Verification of the linus-inspector InterLock mesh transport

Shallow embedding of `src/interlock/protocol.ts` (wire codec), the
`InterlockSocket` UDP wrapper (`src/interlock/socket.ts` part of the module),
and `src/interlock/tumbler.ts` (admission filter), together with theorems
settling the frozen claims about them.

Buffers are modelled as `List Nat` (one entry per byte of the binary header;
body entries abstract UTF-8 code units).  JSON values are modelled by the
mutual inductive family `Json`/`JsonList`/`JsonObj`; `JSON.stringify` is
modelled by `serialize` (integer numbers, `\uXXXX` escapes for control
characters) and `JSON.parse` by `jsonParse`, an executable recursive-descent
parser.
-/

namespace LinusInspector

set_option maxHeartbeats 4000000
set_option maxRecDepth 100000

/-! ## JSON value model (the payload domain of the codec) -/

mutual

/-- A JSON-serializable value. Strings are lists of character code points;
numbers are modelled as integers. -/
inductive Json where
  | null : Json
  | bool (b : Bool) : Json
  | num (n : Int) : Json
  | str (s : List Nat) : Json
  | arr (elems : JsonList) : Json
  | obj (members : JsonObj) : Json

/-- The elements of a JSON array. -/
inductive JsonList where
  | nil : JsonList
  | cons (hd : Json) (tl : JsonList) : JsonList

/-- The members of a JSON object: key/value pairs in insertion order. -/
inductive JsonObj where
  | nil : JsonObj
  | cons (key : List Nat) (val : Json) (tl : JsonObj) : JsonObj

end

/-! ## JSON.stringify model -/

/-- Lower-case hexadecimal digit character for `n < 16`. -/
def hexDigitChar (n : Nat) : Nat := if n < 10 then 48 + n else 87 + n

/-- How `JSON.stringify` emits one string character: `"` and `\` are
backslash-escaped, control characters (< 0x20) become `\u00XX`, everything
else is emitted verbatim. -/
def escapeChar (c : Nat) : List Nat :=
  if c = 34 then [92, 34]
  else if c = 92 then [92, 92]
  else if c < 32 then [92, 117, 48, 48, hexDigitChar (c / 16), hexDigitChar (c % 16)]
  else [c]

/-- Escape every character of a string body. -/
def escapeString : List Nat → List Nat
  | [] => []
  | c :: rest => escapeChar c ++ escapeString rest

/-- A serialized JSON string: quote, escaped body, quote. -/
def serializeString (s : List Nat) : List Nat := 34 :: (escapeString s ++ [34])

/-- Decimal digit characters of `n`, most significant first; the first
argument is recursion fuel (any value above `n` is enough). -/
def natDigitsAux : Nat → Nat → List Nat
  | 0, _ => []
  | fuel + 1, n =>
    if n < 10 then [48 + n]
    else natDigitsAux fuel (n / 10) ++ [48 + n % 10]

/-- Decimal digit characters of `n`, most significant first. -/
def natDigits (n : Nat) : List Nat := natDigitsAux (n + 1) n

/-- Decimal representation of an integer, as `JSON.stringify` prints an
integral number. -/
def serializeInt (n : Int) : List Nat :=
  if n < 0 then 45 :: natDigits n.natAbs else natDigits n.toNat

mutual

/-- `JSON.stringify` on a value (compact form: no whitespace). -/
def serialize : Json → List Nat
  | .null => [110, 117, 108, 108]
  | .bool true => [116, 114, 117, 101]
  | .bool false => [102, 97, 108, 115, 101]
  | .num n => serializeInt n
  | .str s => serializeString s
  | .arr elems => 91 :: serializeArrBody elems
  | .obj members => 123 :: serializeObjBody members

/-- Everything after the opening `[` of an array. -/
def serializeArrBody : JsonList → List Nat
  | .nil => [93]
  | .cons j tl => serialize j ++ serializeArrTail tl

/-- Everything after one array element: either `]` or `,` and more elements. -/
def serializeArrTail : JsonList → List Nat
  | .nil => [93]
  | .cons j tl => 44 :: (serialize j ++ serializeArrTail tl)

/-- Everything after the opening `{` of an object. -/
def serializeObjBody : JsonObj → List Nat
  | .nil => [125]
  | .cons k v tl => serializeString k ++ (58 :: (serialize v ++ serializeObjTail tl))

/-- Everything after one object member: either `}` or `,` and more members. -/
def serializeObjTail : JsonObj → List Nat
  | .nil => [125]
  | .cons k v tl => 44 :: (serializeString k ++ (58 :: (serialize v ++ serializeObjTail tl)))

end

/-! ## JSON.parse model

An executable recursive-descent parser over the same character-code lists.
`parseVal` and friends thread explicit fuel (decremented on every nested
call), so the whole family is structurally recursive. -/

/-- Is `c` a decimal digit character? -/
def isDigit (c : Nat) : Bool := 48 ≤ c && c ≤ 57

/-- Consume a maximal run of digit characters, accumulating their value. -/
def parseDigits : List Nat → Nat → Nat × List Nat
  | [], acc => (acc, [])
  | c :: rest, acc =>
    if isDigit c then parseDigits rest (acc * 10 + (c - 48)) else (acc, c :: rest)

/-- Parse an (optionally negated) integer literal. -/
def parseNumber : List Nat → Option (Int × List Nat)
  | [] => none
  | c :: rest =>
    if c = 45 then
      match rest with
      | [] => none
      | d :: _ =>
        if isDigit d then
          some (-((parseDigits rest 0).1 : Int), (parseDigits rest 0).2)
        else none
    else if isDigit c then
      some (((parseDigits (c :: rest) 0).1 : Int), (parseDigits (c :: rest) 0).2)
    else none

/-- Value of one hexadecimal digit character. -/
def hexVal (c : Nat) : Option Nat :=
  if 48 ≤ c ∧ c ≤ 57 then some (c - 48)
  else if 97 ≤ c ∧ c ≤ 102 then some (c - 87)
  else if 65 ≤ c ∧ c ≤ 70 then some (c - 55)
  else none

/-- Parse a string body up to (and consuming) the closing quote, undoing
escapes. -/
def parseStringBody : List Nat → Option (List Nat × List Nat)
  | [] => none
  | c :: rest =>
    if c = 34 then some ([], rest)
    else if c = 92 then
      match rest with
      | [] => none
      | e :: rest2 =>
        if e = 34 then (parseStringBody rest2).map (fun p => (34 :: p.1, p.2))
        else if e = 92 then (parseStringBody rest2).map (fun p => (92 :: p.1, p.2))
        else if e = 47 then (parseStringBody rest2).map (fun p => (47 :: p.1, p.2))
        else if e = 98 then (parseStringBody rest2).map (fun p => (8 :: p.1, p.2))
        else if e = 102 then (parseStringBody rest2).map (fun p => (12 :: p.1, p.2))
        else if e = 110 then (parseStringBody rest2).map (fun p => (10 :: p.1, p.2))
        else if e = 114 then (parseStringBody rest2).map (fun p => (13 :: p.1, p.2))
        else if e = 116 then (parseStringBody rest2).map (fun p => (9 :: p.1, p.2))
        else if e = 117 then
          match rest2 with
          | a :: b :: c2 :: d :: rest3 =>
            match hexVal a, hexVal b, hexVal c2, hexVal d with
            | some x1, some x2, some x3, some x4 =>
              (parseStringBody rest3).map
                (fun p => ((x1 * 4096 + x2 * 256 + x3 * 16 + x4) :: p.1, p.2))
            | _, _, _, _ => none
          | _ => none
        else none
    else if c < 32 then none
    else (parseStringBody rest).map (fun p => (c :: p.1, p.2))

/-- Consume an expected literal character sequence off the front of the
input, returning the remainder. -/
def parseLit : List Nat → List Nat → Option (List Nat)
  | [], input => some input
  | _ :: _, [] => none
  | l :: lt, c :: rest => if c = l then parseLit lt rest else none

mutual

/-- Parse one JSON value off the front of the input. -/
def parseVal : Nat → List Nat → Option (Json × List Nat)
  | 0, _ => none
  | fuel + 1, input =>
    match input with
    | [] => none
    | c :: rest =>
      if c = 110 then
        match parseLit [117, 108, 108] rest with
        | some r => some (.null, r)
        | none => none
      else if c = 116 then
        match parseLit [114, 117, 101] rest with
        | some r => some (.bool true, r)
        | none => none
      else if c = 102 then
        match parseLit [97, 108, 115, 101] rest with
        | some r => some (.bool false, r)
        | none => none
      else if c = 34 then (parseStringBody rest).map (fun p => (Json.str p.1, p.2))
      else if c = 91 then parseArrBody fuel rest
      else if c = 123 then parseObjBody fuel rest
      else (parseNumber (c :: rest)).map (fun p => (Json.num p.1, p.2))

/-- Parse an array after its opening `[`. -/
def parseArrBody : Nat → List Nat → Option (Json × List Nat)
  | 0, _ => none
  | fuel + 1, input =>
    match input with
    | [] => none
    | c :: rest =>
      if c = 93 then some (.arr .nil, rest)
      else
        match parseVal fuel (c :: rest) with
        | none => none
        | some (j, r1) =>
          match parseArrTail fuel r1 with
          | none => none
          | some (tl, r2) => some (.arr (.cons j tl), r2)

/-- Parse the rest of an array after one element: `]`, or `,` and more. -/
def parseArrTail : Nat → List Nat → Option (JsonList × List Nat)
  | 0, _ => none
  | fuel + 1, input =>
    match input with
    | [] => none
    | c :: rest =>
      if c = 93 then some (.nil, rest)
      else if c = 44 then
        match parseVal fuel rest with
        | none => none
        | some (j, r1) =>
          match parseArrTail fuel r1 with
          | none => none
          | some (tl, r2) => some (.cons j tl, r2)
      else none

/-- Parse an object after its opening `{`. -/
def parseObjBody : Nat → List Nat → Option (Json × List Nat)
  | 0, _ => none
  | fuel + 1, input =>
    match input with
    | [] => none
    | c :: rest =>
      if c = 125 then some (.obj .nil, rest)
      else if c = 34 then
        match parseStringBody rest with
        | none => none
        | some (k, r1) =>
          match r1 with
          | [] => none
          | c2 :: r2 =>
            if c2 = 58 then
              match parseVal fuel r2 with
              | none => none
              | some (v, r3) =>
                match parseObjTail fuel r3 with
                | none => none
                | some (tl, r4) => some (.obj (.cons k v tl), r4)
            else none
      else none

/-- Parse the rest of an object after one member: `}`, or `,` and more. -/
def parseObjTail : Nat → List Nat → Option (JsonObj × List Nat)
  | 0, _ => none
  | fuel + 1, input =>
    match input with
    | [] => none
    | c :: rest =>
      if c = 125 then some (.nil, rest)
      else if c = 44 then
        match rest with
        | [] => none
        | c1 :: r1 =>
          if c1 = 34 then
            match parseStringBody r1 with
            | none => none
            | some (k, r2) =>
              match r2 with
              | [] => none
              | c2 :: r3 =>
                if c2 = 58 then
                  match parseVal fuel r3 with
                  | none => none
                  | some (v, r4) =>
                    match parseObjTail fuel r4 with
                    | none => none
                    | some (tl, r5) => some (.cons k v tl, r5)
                else none
          else none
      else none

end

/-- `JSON.parse` on a whole input: one value consuming the entire input. -/
def jsonParse (bytes : List Nat) : Option Json :=
  match parseVal (bytes.length + 1) bytes with
  | some (j, []) => some j
  | _ => none

/-! ## Round-trip: `jsonParse` inverts `serialize` -/

/-- The serialized forms that may legally follow a number: empty input or a
non-digit character (so the digit scanner stops exactly at the boundary). -/
def restOk : List Nat → Bool
  | [] => true
  | c :: _ => !isDigit c

theorem hexVal_hexDigitChar (n : Nat) (h : n < 16) : hexVal (hexDigitChar n) = some n := by
  unfold hexVal hexDigitChar
  split_ifs <;> simp_all <;> omega

theorem natDigitsAux_spec : ∀ (fuel n : Nat), n < fuel →
    (∀ d ∈ natDigitsAux fuel n, isDigit d = true) ∧
    natDigitsAux fuel n ≠ [] ∧
    (∀ acc : Nat, (natDigitsAux fuel n).foldl (fun a d => a * 10 + (d - 48)) acc
        = acc * 10 ^ (natDigitsAux fuel n).length + n) := by
  intro fuel
  induction fuel with
  | zero => intro n h; omega
  | succ f ih =>
    intro n h
    rw [natDigitsAux]
    by_cases h10 : n < 10
    · rw [if_pos h10]
      refine ⟨?_, by simp, ?_⟩
      · intro d hd
        simp only [List.mem_singleton] at hd
        subst hd
        simp only [isDigit, Bool.and_eq_true, decide_eq_true_eq]
        omega
      · intro acc
        simp only [List.foldl, List.length_singleton, pow_one]
        omega
    · rw [if_neg h10]
      obtain ⟨hdig, hne, hval⟩ := ih (n / 10) (by omega)
      refine ⟨?_, by simp, ?_⟩
      · intro d hd
        rcases List.mem_append.mp hd with h1 | h1
        · exact hdig d h1
        · simp only [List.mem_singleton] at h1
          subst h1
          simp only [isDigit, Bool.and_eq_true, decide_eq_true_eq]
          omega
      · intro acc
        rw [List.foldl_append, hval acc]
        simp only [List.foldl, List.length_append, List.length_singleton]
        have hmod : 48 + n % 10 - 48 = n % 10 := by omega
        rw [hmod, pow_succ]
        have hstep : (acc * 10 ^ (natDigitsAux f (n / 10)).length + n / 10) * 10 + n % 10
            = acc * (10 ^ (natDigitsAux f (n / 10)).length * 10) + (n / 10 * 10 + n % 10) := by
          ring
        rw [hstep]
        congr 1
        omega

theorem natDigits_digits (n : Nat) : ∀ d ∈ natDigits n, isDigit d = true :=
  (natDigitsAux_spec (n + 1) n (by omega)).1

theorem natDigits_ne_nil (n : Nat) : natDigits n ≠ [] :=
  (natDigitsAux_spec (n + 1) n (by omega)).2.1

theorem natDigits_val (n : Nat) :
    (natDigits n).foldl (fun a d => a * 10 + (d - 48)) 0 = n := by
  have h := (natDigitsAux_spec (n + 1) n (by omega)).2.2 0
  simpa using h

theorem parseDigits_spec : ∀ (ds : List Nat) (acc : Nat) (rest : List Nat),
    (∀ d ∈ ds, isDigit d = true) → restOk rest = true →
    parseDigits (ds ++ rest) acc = (ds.foldl (fun a d => a * 10 + (d - 48)) acc, rest) := by
  intro ds
  induction ds with
  | nil =>
    intro acc rest _ hrest
    cases rest with
    | nil => simp [parseDigits]
    | cons c t =>
      simp only [restOk, Bool.not_eq_true'] at hrest
      simp [parseDigits, hrest]
  | cons d ds ih =>
    intro acc rest hds hrest
    have hd : isDigit d = true := hds d (by simp)
    rw [List.cons_append]
    simp only [parseDigits, hd, if_true, List.foldl]
    exact ih _ rest (fun x hx => hds x (by simp [hx])) hrest

theorem parseNumber_serializeInt (n : Int) (rest : List Nat) (hrest : restOk rest = true) :
    parseNumber (serializeInt n ++ rest) = some (n, rest) := by
  unfold serializeInt
  by_cases hneg : n < 0
  · rw [if_pos hneg]
    obtain ⟨d, t, hdt⟩ : ∃ d t, natDigits n.natAbs = d :: t := by
      cases hnd : natDigits n.natAbs with
      | nil => exact absurd hnd (natDigits_ne_nil _)
      | cons d t => exact ⟨d, t, rfl⟩
    have hd : isDigit d = true := natDigits_digits _ d (by rw [hdt]; simp)
    have hparse := parseDigits_spec (natDigits n.natAbs) 0 rest (natDigits_digits _) hrest
    rw [natDigits_val] at hparse
    rw [List.cons_append]
    simp only [parseNumber, if_pos rfl]
    rw [hdt, List.cons_append]
    simp only [hd, if_true]
    rw [← List.cons_append, ← hdt, hparse]
    simp only [Option.some.injEq, Prod.mk.injEq]
    refine ⟨by omega, trivial⟩
  · rw [if_neg hneg]
    obtain ⟨d, t, hdt⟩ : ∃ d t, natDigits n.toNat = d :: t := by
      cases hnd : natDigits n.toNat with
      | nil => exact absurd hnd (natDigits_ne_nil _)
      | cons d t => exact ⟨d, t, rfl⟩
    have hd : isDigit d = true := natDigits_digits _ d (by rw [hdt]; simp)
    have hd45 : d ≠ 45 := by
      simp only [isDigit, Bool.and_eq_true, decide_eq_true_eq] at hd
      omega
    have hparse := parseDigits_spec (natDigits n.toNat) 0 rest (natDigits_digits _) hrest
    rw [natDigits_val] at hparse
    rw [hdt, List.cons_append]
    simp only [parseNumber, if_neg hd45, hd, if_true]
    rw [← List.cons_append, ← hdt, hparse]
    simp only [Option.some.injEq, Prod.mk.injEq]
    refine ⟨by omega, trivial⟩

theorem parseStringBody_escape : ∀ (s rest : List Nat),
    parseStringBody (escapeString s ++ 34 :: rest) = some (s, rest) := by
  intro s
  induction s with
  | nil =>
    intro rest
    rw [escapeString, List.nil_append, parseStringBody.eq_def]
    simp
  | cons c s ih =>
    intro rest
    simp only [escapeString, List.append_assoc]
    unfold escapeChar
    by_cases h34 : c = 34
    · subst h34
      rw [if_pos rfl]
      simp only [List.cons_append, List.nil_append]
      rw [parseStringBody.eq_def]
      simp [ih rest]
    · rw [if_neg h34]
      by_cases h92 : c = 92
      · subst h92
        rw [if_pos rfl]
        simp only [List.cons_append, List.nil_append]
        rw [parseStringBody.eq_def]
        simp [ih rest]
      · rw [if_neg h92]
        by_cases hctl : c < 32
        · rw [if_pos hctl]
          have hhi := hexVal_hexDigitChar (c / 16) (by omega)
          have hlo := hexVal_hexDigitChar (c % 16) (by omega)
          simp only [List.cons_append, List.nil_append]
          rw [parseStringBody.eq_def]
          have h48 : hexVal 48 = some 0 := by simp [hexVal]
          simp [h48, hhi, hlo, ih rest]
          omega
        · rw [if_neg hctl]
          simp only [List.cons_append, List.nil_append]
          rw [parseStringBody.eq_def]
          simp only [if_neg h34, if_neg h92, if_neg hctl]
          rw [ih rest]
          rfl

theorem serialize_head (j : Json) : ∃ c t, serialize j = c :: t ∧
    (c = 110 ∨ c = 116 ∨ c = 102 ∨ c = 34 ∨ c = 91 ∨ c = 123 ∨ c = 45 ∨ isDigit c = true) := by
  cases j with
  | null => exact ⟨110, _, rfl, by simp⟩
  | bool b => cases b
               <;> exact ⟨_, _, rfl, by simp⟩
  | num n =>
    show ∃ c t, serializeInt n = c :: t ∧ _
    unfold serializeInt
    by_cases hneg : n < 0
    · rw [if_pos hneg]
      exact ⟨45, _, rfl, by simp⟩
    · rw [if_neg hneg]
      cases hnd : natDigits n.toNat with
      | nil => exact absurd hnd (natDigits_ne_nil _)
      | cons d t =>
        refine ⟨d, t, rfl, ?_⟩
        have hd : isDigit d = true := natDigits_digits _ d (by rw [hnd]; simp)
        simp [hd]
  | str s => exact ⟨34, _, rfl, by simp⟩
  | arr l => exact ⟨91, _, rfl, by simp⟩
  | obj o => exact ⟨123, _, rfl, by simp⟩

theorem serialize_ne_nil (j : Json) : serialize j ≠ [] := by
  obtain ⟨c, t, h, _⟩ := serialize_head j
  simp [h]

theorem serializeArrTail_head (l : JsonList) :
    ∃ c t, serializeArrTail l = c :: t ∧ (c = 93 ∨ c = 44) := by
  cases l with
  | nil => exact ⟨93, [], rfl, by simp⟩
  | cons j tl => exact ⟨44, _, rfl, by simp⟩

theorem serializeObjTail_head (o : JsonObj) :
    ∃ c t, serializeObjTail o = c :: t ∧ (c = 125 ∨ c = 44) := by
  cases o with
  | nil => exact ⟨125, [], rfl, by simp⟩
  | cons k v tl => exact ⟨44, _, rfl, by simp⟩

theorem restOk_serializeArrTail (l : JsonList) (rest : List Nat) :
    restOk (serializeArrTail l ++ rest) = true := by
  obtain ⟨c, t, h, hc⟩ := serializeArrTail_head l
  rw [h, List.cons_append]
  rcases hc with h1 | h1 <;> subst h1 <;> rfl

theorem restOk_serializeObjTail (o : JsonObj) (rest : List Nat) :
    restOk (serializeObjTail o ++ rest) = true := by
  obtain ⟨c, t, h, hc⟩ := serializeObjTail_head o
  rw [h, List.cons_append]
  rcases hc with h1 | h1 <;> subst h1 <;> rfl

theorem serializeInt_head (n : Int) :
    ∃ c t, serializeInt n = c :: t ∧ (c = 45 ∨ isDigit c = true) := by
  unfold serializeInt
  by_cases hneg : n < 0
  · rw [if_pos hneg]
    exact ⟨45, _, rfl, Or.inl rfl⟩
  · rw [if_neg hneg]
    cases hnd : natDigits n.toNat with
    | nil => exact absurd hnd (natDigits_ne_nil _)
    | cons d t =>
      exact ⟨d, t, rfl, Or.inr (natDigits_digits _ d (by rw [hnd]; simp))⟩

theorem parseVal_fall_to_number (fuel c : Nat) (rest : List Nat)
    (h : c = 45 ∨ isDigit c = true) :
    parseVal (fuel + 1) (c :: rest)
      = (parseNumber (c :: rest)).map (fun p => (Json.num p.1, p.2)) := by
  have hd : c = 45 ∨ (48 ≤ c ∧ c ≤ 57) := by
    rcases h with h | h
    · exact Or.inl h
    · simp only [isDigit, Bool.and_eq_true, decide_eq_true_eq] at h
      exact Or.inr h
  have h1 : ¬(c = 110) := by omega
  have h2 : ¬(c = 116) := by omega
  have h3 : ¬(c = 102) := by omega
  have h4 : ¬(c = 34) := by omega
  have h5 : ¬(c = 91) := by omega
  have h6 : ¬(c = 123) := by omega
  rw [parseVal.eq_def]
  simp only [if_neg h1, if_neg h2, if_neg h3, if_neg h4, if_neg h5, if_neg h6]

theorem serialize_length_pos (j : Json) : 1 ≤ (serialize j).length := by
  obtain ⟨c, t, h, _⟩ := serialize_head j
  simp [h]

theorem serializeArrTail_length_pos (l : JsonList) : 1 ≤ (serializeArrTail l).length := by
  obtain ⟨c, t, h, _⟩ := serializeArrTail_head l
  simp [h]

theorem serializeObjTail_length_pos (o : JsonObj) : 1 ≤ (serializeObjTail o).length := by
  obtain ⟨c, t, h, _⟩ := serializeObjTail_head o
  simp [h]

theorem serializeArrBody_length_pos (l : JsonList) : 1 ≤ (serializeArrBody l).length := by
  cases l with
  | nil => simp [serializeArrBody]
  | cons j tl =>
    have := serialize_length_pos j
    simp [serializeArrBody]
    omega

theorem serializeObjBody_length_pos (o : JsonObj) : 1 ≤ (serializeObjBody o).length := by
  cases o with
  | nil => simp [serializeObjBody]
  | cons k v tl =>
    simp [serializeObjBody, serializeString]

theorem serialize_head_not_closer (j : Json) :
    ∃ c t, serialize j = c :: t ∧ ¬(c = 93) ∧ ¬(c = 125) ∧ ¬(c = 44) := by
  obtain ⟨c, t, h, hc⟩ := serialize_head j
  refine ⟨c, t, h, ?_, ?_, ?_⟩ <;>
    rcases hc with h1 | h1 | h1 | h1 | h1 | h1 | h1 | h1 <;>
      first
        | omega
        | · simp only [isDigit, Bool.and_eq_true, decide_eq_true_eq] at h1
            omega

/-- The joint round-trip statement: at every fuel level at least the length of
the serialized form, each parser of the family consumes exactly that
serialized form and returns the original value, leaving the rest untouched. -/
theorem parse_serialize : ∀ fuel : Nat,
    (∀ (j : Json) (rest : List Nat), (serialize j).length ≤ fuel → restOk rest = true →
        parseVal fuel (serialize j ++ rest) = some (j, rest)) ∧
    (∀ (l : JsonList) (rest : List Nat), (serializeArrBody l).length ≤ fuel →
        parseArrBody fuel (serializeArrBody l ++ rest) = some (Json.arr l, rest)) ∧
    (∀ (l : JsonList) (rest : List Nat), (serializeArrTail l).length ≤ fuel →
        parseArrTail fuel (serializeArrTail l ++ rest) = some (l, rest)) ∧
    (∀ (o : JsonObj) (rest : List Nat), (serializeObjBody o).length ≤ fuel →
        parseObjBody fuel (serializeObjBody o ++ rest) = some (Json.obj o, rest)) ∧
    (∀ (o : JsonObj) (rest : List Nat), (serializeObjTail o).length ≤ fuel →
        parseObjTail fuel (serializeObjTail o ++ rest) = some (o, rest)) := by
  intro fuel
  induction fuel with
  | zero =>
    refine ⟨?_, ?_, ?_, ?_, ?_⟩
    · intro j rest hlen _
      have := serialize_length_pos j
      omega
    · intro l rest hlen
      have := serializeArrBody_length_pos l
      omega
    · intro l rest hlen
      have := serializeArrTail_length_pos l
      omega
    · intro o rest hlen
      have := serializeObjBody_length_pos o
      omega
    · intro o rest hlen
      have := serializeObjTail_length_pos o
      omega
  | succ f ih =>
    obtain ⟨ihV, ihB, ihT, ihOB, ihOT⟩ := ih
    refine ⟨?_, ?_, ?_, ?_, ?_⟩
    · -- parseVal
      intro j rest hlen hrest
      cases j with
      | null => rfl
      | bool b => cases b <;> rfl
      | num n =>
        obtain ⟨c, t, hct, hc⟩ := serializeInt_head n
        show parseVal (f + 1) (serializeInt n ++ rest) = some (Json.num n, rest)
        rw [hct, List.cons_append, parseVal_fall_to_number f c _ hc,
          ← List.cons_append, ← hct, parseNumber_serializeInt n rest hrest]
        rfl
      | str s =>
        show parseVal (f + 1) ((34 :: (escapeString s ++ [34])) ++ rest)
          = some (Json.str s, rest)
        rw [List.cons_append, List.append_assoc, List.singleton_append]
        rw [parseVal.eq_def]
        simp [parseStringBody_escape s rest]
      | arr l =>
        show parseVal (f + 1) ((91 :: serializeArrBody l) ++ rest) = some (Json.arr l, rest)
        rw [List.cons_append, parseVal.eq_def]
        have hlen' : (serializeArrBody l).length ≤ f := by
          have hs : (serialize (Json.arr l)).length = (serializeArrBody l).length + 1 := by
            show (91 :: serializeArrBody l).length = _
            simp
          omega
        simp [ihB l rest hlen']
      | obj o =>
        show parseVal (f + 1) ((123 :: serializeObjBody o) ++ rest) = some (Json.obj o, rest)
        rw [List.cons_append, parseVal.eq_def]
        have hlen' : (serializeObjBody o).length ≤ f := by
          have hs : (serialize (Json.obj o)).length = (serializeObjBody o).length + 1 := by
            show (123 :: serializeObjBody o).length = _
            simp
          omega
        simp [ihOB o rest hlen']
    · -- parseArrBody
      intro l rest hlen
      cases l with
      | nil => rfl
      | cons j tl =>
        show parseArrBody (f + 1) ((serialize j ++ serializeArrTail tl) ++ rest)
          = some (Json.arr (JsonList.cons j tl), rest)
        have hlj : 1 ≤ (serialize j).length := serialize_length_pos j
        have hlt : 1 ≤ (serializeArrTail tl).length := serializeArrTail_length_pos tl
        have hlen2 : (serialize j).length + (serializeArrTail tl).length ≤ f + 1 := by
          have he : (serializeArrBody (JsonList.cons j tl)).length
              = (serialize j).length + (serializeArrTail tl).length := by
            show (serialize j ++ serializeArrTail tl).length = _
            simp
          omega
        obtain ⟨c, t, hct, h93, _, _⟩ := serialize_head_not_closer j
        rw [List.append_assoc, hct, List.cons_append, parseArrBody.eq_def]
        simp only [if_neg h93]
        rw [← List.cons_append, ← hct]
        simp only [ihV j _ (by omega) (restOk_serializeArrTail tl rest),
          ihT tl rest (by omega)]
    · -- parseArrTail
      intro l rest hlen
      cases l with
      | nil => rfl
      | cons j tl =>
        show parseArrTail (f + 1) ((44 :: (serialize j ++ serializeArrTail tl)) ++ rest)
          = some (JsonList.cons j tl, rest)
        have hlj : 1 ≤ (serialize j).length := serialize_length_pos j
        have hlt : 1 ≤ (serializeArrTail tl).length := serializeArrTail_length_pos tl
        have hlen2 : 1 + ((serialize j).length + (serializeArrTail tl).length) ≤ f + 1 := by
          have he : (serializeArrTail (JsonList.cons j tl)).length
              = 1 + ((serialize j).length + (serializeArrTail tl).length) := by
            show (44 :: (serialize j ++ serializeArrTail tl)).length = _
            simp
            ring
          omega
        rw [List.cons_append, List.append_assoc, parseArrTail.eq_def]
        simp [ihV j _ (by omega) (restOk_serializeArrTail tl rest),
          ihT tl rest (by omega)]
    · -- parseObjBody
      intro o rest hlen
      cases o with
      | nil => rfl
      | cons k v tl =>
        show parseObjBody (f + 1)
            ((serializeString k ++ (58 :: (serialize v ++ serializeObjTail tl))) ++ rest)
          = some (Json.obj (JsonObj.cons k v tl), rest)
        have hlv : 1 ≤ (serialize v).length := serialize_length_pos v
        have hlt : 1 ≤ (serializeObjTail tl).length := serializeObjTail_length_pos tl
        have hlen2 : (serializeString k).length + 1
            + ((serialize v).length + (serializeObjTail tl).length) ≤ f + 1 := by
          have he : (serializeObjBody (JsonObj.cons k v tl)).length
              = (serializeString k).length + 1
                + ((serialize v).length + (serializeObjTail tl).length) := by
            show (serializeString k ++ (58 :: (serialize v ++ serializeObjTail tl))).length = _
            simp
            ring
          omega
        simp only [serializeString, List.cons_append, List.append_assoc,
          List.singleton_append]
        rw [parseObjBody.eq_def]
        simp [parseStringBody_escape k,
          ihV v _ (by omega) (restOk_serializeObjTail tl rest),
          ihOT tl rest (by omega)]
    · -- parseObjTail
      intro o rest hlen
      cases o with
      | nil => rfl
      | cons k v tl =>
        show parseObjTail (f + 1)
            ((44 :: (serializeString k ++ (58 :: (serialize v ++ serializeObjTail tl)))) ++ rest)
          = some (JsonObj.cons k v tl, rest)
        have hlv : 1 ≤ (serialize v).length := serialize_length_pos v
        have hlt : 1 ≤ (serializeObjTail tl).length := serializeObjTail_length_pos tl
        have hlen2 : 1 + ((serializeString k).length + 1
            + ((serialize v).length + (serializeObjTail tl).length)) ≤ f + 1 := by
          have he : (serializeObjTail (JsonObj.cons k v tl)).length
              = 1 + ((serializeString k).length + 1
                + ((serialize v).length + (serializeObjTail tl).length)) := by
            show (44 :: (serializeString k ++ (58 :: (serialize v ++ serializeObjTail tl)))).length = _
            simp
            ring
          omega
        simp only [serializeString, List.cons_append, List.append_assoc,
          List.singleton_append]
        rw [parseObjTail.eq_def]
        simp [parseStringBody_escape k,
          ihV v _ (by omega) (restOk_serializeObjTail tl rest),
          ihOT tl rest (by omega)]

/-- `JSON.parse` inverts `JSON.stringify`. -/
theorem jsonParse_serialize (p : Json) : jsonParse (serialize p) = some p := by
  unfold jsonParse
  have h := (parse_serialize ((serialize p).length + 1)).1 p [] (by omega) rfl
  rw [List.append_nil] at h
  rw [h]

/-! ## BaNano wire format (`src/interlock/protocol.ts`) -/

def PROTOCOL_VERSION : Nat := 1

def HEADER_SIZE : Nat := 12

def SIGNALS.INSPECTION_PASSED : Nat := 0xC4
def SIGNALS.INSPECTION_FAILED : Nat := 0xC5
def SIGNALS.LESSON_EXTRACTED : Nat := 0xC7
def SIGNALS.PRE_INSPECTION_COMPLETE : Nat := 0xD0
def SIGNALS.CONNECTION_TEST_RESULT : Nat := 0xD1
def SIGNALS.BUILD_STARTED : Nat := 0xC0
def SIGNALS.INSPECTION_REQUESTED : Nat := 0xC3
def SIGNALS.PRE_INSPECTION_REQUESTED : Nat := 0xD2
def SIGNALS.SKILL_VALIDATION_REQUESTED : Nat := 0xD3
def SIGNALS.PROMPT_VALIDATION_REQUESTED : Nat := 0xD4

/-- `Buffer.writeUInt16LE`: the two little-endian bytes of a 16-bit value. -/
def writeUInt16LE (v : Nat) : List Nat := [v % 256, v / 256 % 256]

/-- `Buffer.writeUInt32LE`: the four little-endian bytes of a 32-bit value. -/
def writeUInt32LE (v : Nat) : List Nat :=
  [v % 256, v / 256 % 256, v / 65536 % 256, v / 16777216 % 256]

/-- `Buffer.readUInt16LE(off)` over a byte list. -/
def readUInt16LE (b : List Nat) (off : Nat) : Nat :=
  b.getD off 0 + 256 * b.getD (off + 1) 0

/-- `Buffer.readUInt32LE(off)` over a byte list. -/
def readUInt32LE (b : List Nat) (off : Nat) : Nat :=
  b.getD off 0 + 256 * b.getD (off + 1) 0
    + 65536 * b.getD (off + 2) 0 + 16777216 * b.getD (off + 3) 0

/-- A decoded BaNano message (`interface BaNanoMessage`).  JavaScript uses
`payload = null` for an empty body, which the model renders as `Json.null`. -/
structure BaNanoMessage where
  signalType : Nat
  version : Nat
  timestamp : Nat
  payload : Json

/-- `encodeMessage(signalType, payload)` from `protocol.ts`.  The wall-clock
read `Math.floor(Date.now() / 1000)` is passed in as `now`. -/
def encodeMessage (signalType : Nat) (payload : Json) (now : Nat) : List Nat :=
  (writeUInt16LE signalType ++ writeUInt16LE PROTOCOL_VERSION
    ++ writeUInt32LE (serialize payload).length ++ writeUInt32LE now)
    ++ serialize payload

/-- `decodeMessage(buffer)` from `protocol.ts`: fail closed on a short buffer,
a truncated body, or an unparsable body; an empty declared body yields a
`null` payload. -/
def decodeMessage (buffer : List Nat) : Option BaNanoMessage :=
  if buffer.length < HEADER_SIZE then none
  else if buffer.length < HEADER_SIZE + readUInt32LE buffer 4 then none
  else if 0 < readUInt32LE buffer 4 then
    match jsonParse ((buffer.drop HEADER_SIZE).take (readUInt32LE buffer 4)) with
    | none => none
    | some payload =>
      some ⟨readUInt16LE buffer 0, readUInt16LE buffer 2, readUInt32LE buffer 8, payload⟩
  else some ⟨readUInt16LE buffer 0, readUInt16LE buffer 2, readUInt32LE buffer 8, Json.null⟩

/-! ### Little-endian read/write round trips -/

theorem readUInt16LE_cons2 (x y : Nat) (b : List Nat) (off : Nat) :
    readUInt16LE (x :: y :: b) (off + 2) = readUInt16LE b off := rfl

theorem readUInt32LE_cons4 (x y z w : Nat) (b : List Nat) (off : Nat) :
    readUInt32LE (x :: y :: z :: w :: b) (off + 4) = readUInt32LE b off := rfl

theorem readUInt16LE_write (v : Nat) (t : List Nat) (hv : v < 65536) :
    readUInt16LE (writeUInt16LE v ++ t) 0 = v := by
  have h : readUInt16LE (writeUInt16LE v ++ t) 0
      = v % 256 + 256 * (v / 256 % 256) := rfl
  rw [h]
  omega

theorem readUInt32LE_write (v : Nat) (t : List Nat) (hv : v < 4294967296) :
    readUInt32LE (writeUInt32LE v ++ t) 0 = v := by
  have h : readUInt32LE (writeUInt32LE v ++ t) 0
      = v % 256 + 256 * (v / 256 % 256)
        + 65536 * (v / 65536 % 256) + 16777216 * (v / 16777216 % 256) := rfl
  rw [h]
  omega

theorem encodeMessage_assoc (s : Nat) (p : Json) (now : Nat) :
    encodeMessage s p now
      = writeUInt16LE s ++ (writeUInt16LE PROTOCOL_VERSION
        ++ (writeUInt32LE (serialize p).length ++ (writeUInt32LE now ++ serialize p))) := by
  simp [encodeMessage, List.append_assoc]

theorem encodeMessage_length (s : Nat) (p : Json) (now : Nat) :
    (encodeMessage s p now).length = 12 + (serialize p).length := by
  simp [encodeMessage, writeUInt16LE, writeUInt32LE]
  omega

theorem encodeMessage_read0 (s : Nat) (p : Json) (now : Nat) (hs : s < 65536) :
    readUInt16LE (encodeMessage s p now) 0 = s := by
  rw [encodeMessage_assoc]
  exact readUInt16LE_write s _ hs

theorem encodeMessage_read2 (s : Nat) (p : Json) (now : Nat) :
    readUInt16LE (encodeMessage s p now) 2 = PROTOCOL_VERSION := by
  rw [encodeMessage_assoc]
  show readUInt16LE ((s % 256) :: (s / 256 % 256)
    :: (writeUInt16LE PROTOCOL_VERSION
      ++ (writeUInt32LE (serialize p).length ++ (writeUInt32LE now ++ serialize p)))) (0 + 2) = _
  rw [readUInt16LE_cons2]
  exact readUInt16LE_write PROTOCOL_VERSION _ (by norm_num [PROTOCOL_VERSION])

theorem encodeMessage_read4 (s : Nat) (p : Json) (now : Nat)
    (hp : (serialize p).length < 4294967296) :
    readUInt32LE (encodeMessage s p now) 4 = (serialize p).length := by
  rw [encodeMessage_assoc]
  show readUInt32LE ((s % 256) :: (s / 256 % 256) :: (PROTOCOL_VERSION % 256)
    :: (PROTOCOL_VERSION / 256 % 256)
    :: (writeUInt32LE (serialize p).length ++ (writeUInt32LE now ++ serialize p))) (0 + 4) = _
  rw [readUInt32LE_cons4]
  exact readUInt32LE_write _ _ hp

theorem encodeMessage_read8 (s : Nat) (p : Json) (now : Nat) (hnow : now < 4294967296) :
    readUInt32LE (encodeMessage s p now) 8 = now := by
  rw [encodeMessage_assoc]
  show readUInt32LE ((s % 256) :: (s / 256 % 256) :: (PROTOCOL_VERSION % 256)
    :: (PROTOCOL_VERSION / 256 % 256)
    :: ((serialize p).length % 256) :: ((serialize p).length / 256 % 256)
    :: ((serialize p).length / 65536 % 256) :: ((serialize p).length / 16777216 % 256)
    :: (writeUInt32LE now ++ serialize p)) (0 + 4 + 4) = _
  rw [readUInt32LE_cons4, readUInt32LE_cons4]
  exact readUInt32LE_write _ _ hnow

theorem encodeMessage_drop12 (s : Nat) (p : Json) (now : Nat) :
    (encodeMessage s p now).drop 12 = serialize p := by
  rw [encodeMessage_assoc]
  rfl

/-! ## Claim C1: decode inverts encode -/

/-- C1.  For every signal code `s` (a 16-bit value), every JSON-serializable
payload `p` and every wall-clock second `now` (32-bit, as written into the
header), decoding the bytes produced by `encodeMessage` succeeds and yields a
message whose `signalType` equals `s` and whose payload is deep-equal to `p`
(the decoded message also carries protocol version 1 and the timestamp). -/
theorem C1_decode_encode_roundtrip (s : Nat) (p : Json) (now : Nat)
    (hs : s < 65536) (hnow : now < 4294967296)
    (hp : (serialize p).length < 4294967296) :
    decodeMessage (encodeMessage s p now)
      = some ⟨s, PROTOCOL_VERSION, now, p⟩ := by
  have hlen := encodeMessage_length s p now
  have h0 := encodeMessage_read0 s p now hs
  have h2 := encodeMessage_read2 s p now
  have h4 := encodeMessage_read4 s p now hp
  have h8 := encodeMessage_read8 s p now hnow
  have hpos : 1 ≤ (serialize p).length := serialize_length_pos p
  have hdrop := encodeMessage_drop12 s p now
  unfold decodeMessage
  simp only [HEADER_SIZE]
  rw [h4, hlen]
  rw [if_neg (by omega), if_neg (by omega), if_pos (by omega)]
  rw [hdrop, List.take_length, jsonParse_serialize p, h0, h2, h8]

/-- Witness for C1 at a concrete input: signal `0xC3`, payload `null`,
timestamp `7`. -/
theorem C1_decode_encode_roundtrip_witness :
    (0xC3 : Nat) < 65536 ∧ (7 : Nat) < 4294967296
      ∧ (serialize Json.null).length < 4294967296
      ∧ decodeMessage (encodeMessage 0xC3 Json.null 7)
          = some ⟨0xC3, PROTOCOL_VERSION, 7, Json.null⟩ :=
  ⟨by norm_num, by norm_num, by norm_num [serialize],
    C1_decode_encode_roundtrip 0xC3 Json.null 7 (by norm_num) (by norm_num)
      (by norm_num [serialize])⟩

/-! ## Claim C2: decode fails closed, exactly on the three error conditions -/

/-- C2.  `decodeMessage` returns no message exactly when the buffer is shorter
than 12 bytes, or the declared body length exceeds the bytes available after
the header, or the body length is positive and the body does not parse as
JSON; otherwise the returned message carries the four header fields read from
the buffer, with payload `null` when the declared body length is 0 and the
parsed body otherwise. -/
theorem C2_decode_error_conditions (buffer : List Nat) :
    ((decodeMessage buffer = none) ↔
      (buffer.length < 12
        ∨ buffer.length < 12 + readUInt32LE buffer 4
        ∨ (0 < readUInt32LE buffer 4
            ∧ jsonParse ((buffer.drop 12).take (readUInt32LE buffer 4)) = none)))
    ∧ (∀ m : BaNanoMessage, decodeMessage buffer = some m →
        m.signalType = readUInt16LE buffer 0
        ∧ m.version = readUInt16LE buffer 2
        ∧ m.timestamp = readUInt32LE buffer 8
        ∧ (readUInt32LE buffer 4 = 0 → m.payload = Json.null)
        ∧ (0 < readUInt32LE buffer 4 →
            jsonParse ((buffer.drop 12).take (readUInt32LE buffer 4))
              = some m.payload)) := by
  unfold decodeMessage
  simp only [HEADER_SIZE]
  by_cases h1 : buffer.length < 12
  · rw [if_pos h1]
    refine ⟨⟨fun _ => Or.inl h1, fun _ => rfl⟩, ?_⟩
    intro m hm
    exact absurd hm (by simp)
  · rw [if_neg h1]
    by_cases h2 : buffer.length < 12 + readUInt32LE buffer 4
    · rw [if_pos h2]
      refine ⟨⟨fun _ => Or.inr (Or.inl h2), fun _ => rfl⟩, ?_⟩
      intro m hm
      exact absurd hm (by simp)
    · rw [if_neg h2]
      by_cases h3 : 0 < readUInt32LE buffer 4
      · rw [if_pos h3]
        cases hj : jsonParse ((buffer.drop 12).take (readUInt32LE buffer 4)) with
        | none =>
          refine ⟨⟨fun _ => Or.inr (Or.inr ⟨h3, rfl⟩), fun _ => rfl⟩, ?_⟩
          intro m hm
          exact absurd hm (by simp)
        | some payload =>
          refine ⟨⟨fun h => absurd h (by simp), fun h => ?_⟩, ?_⟩
          · rcases h with h | h | ⟨_, h⟩
            · exact absurd h h1
            · exact absurd h h2
            · exact absurd h (by simp)
          · intro m hm
            simp only [Option.some.injEq] at hm
            subst hm
            exact ⟨rfl, rfl, rfl, fun h0 => by omega, fun _ => rfl⟩
      · rw [if_neg h3]
        refine ⟨⟨fun h => absurd h (by simp), fun h => ?_⟩, ?_⟩
        · rcases h with h | h | ⟨h, _⟩
          · exact absurd h h1
          · exact absurd h h2
          · exact absurd h h3
        · intro m hm
          simp only [Option.some.injEq] at hm
          subst hm
          exact ⟨rfl, rfl, rfl, fun _ => rfl, fun h0 => absurd h0 h3⟩

/-! ## Claim C3: encode layout (corrected: no payload yields an empty body) -/

/-- C3 counterexample.  The claim says an "empty" payload yields a zero-length
body, but `encodeMessage` serializes every payload through `JSON.stringify`:
the `null` payload produces the 4-byte body `"null"`, so the declared body
length is 4 and the datagram is 16 bytes, never 12. -/
theorem C3_counterexample :
    readUInt32LE (encodeMessage 0xC3 Json.null 0) 4 = 4
      ∧ (encodeMessage 0xC3 Json.null 0).length = 16 := ⟨rfl, rfl⟩

/-- C3 (amended).  `encodeMessage` produces a 12-byte little-endian header —
signal code (uint16) at offset 0, constant version 1 (uint16) at offset 2,
body length in bytes (uint32) at offset 4, the wall-clock unix seconds
(uint32) at offset 8 — followed by the payload serialized as UTF-8 JSON; the
body is never zero-length (in particular a `null` payload yields the 4-byte
body `"null"`, not an empty body). -/
theorem C3_encode_header_layout (s : Nat) (p : Json) (now : Nat)
    (hs : s < 65536) (hnow : now < 4294967296)
    (hp : (serialize p).length < 4294967296) :
    (encodeMessage s p now).length = 12 + (serialize p).length
    ∧ readUInt16LE (encodeMessage s p now) 0 = s
    ∧ readUInt16LE (encodeMessage s p now) 2 = 1
    ∧ readUInt32LE (encodeMessage s p now) 4 = (serialize p).length
    ∧ readUInt32LE (encodeMessage s p now) 8 = now
    ∧ (encodeMessage s p now).drop 12 = serialize p
    ∧ 1 ≤ (serialize p).length :=
  ⟨encodeMessage_length s p now, encodeMessage_read0 s p now hs,
    encodeMessage_read2 s p now, encodeMessage_read4 s p now hp,
    encodeMessage_read8 s p now hnow, encodeMessage_drop12 s p now,
    serialize_length_pos p⟩

/-- Witness for C3 at a concrete input: signal `0xC0`, payload `true`,
timestamp `3`. -/
theorem C3_encode_header_layout_witness :
    (0xC0 : Nat) < 65536 ∧ (3 : Nat) < 4294967296
      ∧ (serialize (Json.bool true)).length < 4294967296
      ∧ (encodeMessage 0xC0 (Json.bool true) 3).length
          = 12 + (serialize (Json.bool true)).length
      ∧ readUInt16LE (encodeMessage 0xC0 (Json.bool true) 3) 0 = 0xC0 :=
  ⟨by norm_num, by norm_num, by norm_num [serialize],
    (C3_encode_header_layout 0xC0 (Json.bool true) 3 (by norm_num) (by norm_num)
      (by norm_num [serialize])).1,
    (C3_encode_header_layout 0xC0 (Json.bool true) 3 (by norm_num) (by norm_num)
      (by norm_num [serialize])).2.1⟩

/-- Witness for C2 at a concrete input: a 3-byte buffer is rejected as too
short. -/
theorem C2_decode_error_conditions_witness :
    decodeMessage [1, 2, 3] = none :=
  ((C2_decode_error_conditions [1, 2, 3]).1).mpr (Or.inl (by norm_num))

/-! ## InterlockSocket (the `InterlockSocket` class of the interlock module) -/

/-- A configured peer (`{ name, port }`). -/
structure Peer where
  name : String
  port : Nat

/-- `InterlockConfig`. -/
structure InterlockConfig where
  port : Nat
  peers : List Peer

/-- A registered message handler, abstracted to an identity plus whether its
invocation throws; what a handler does is observed through the invocation
log. -/
structure Handler where
  id : Nat
  throws : Bool

/-- The `InterlockSocket` state: whether the UDP socket handle is present
(`socket !== null`), the configuration, the per-code handler map and the
global handler list. -/
structure InterlockSocket where
  socket : Bool
  config : InterlockConfig
  handlers : Nat → List Handler
  globalHandlers : List Handler

/-- `new InterlockSocket(config)`: no socket handle yet, no handlers. -/
def mkInterlockSocket (config : InterlockConfig) : InterlockSocket :=
  ⟨false, config, fun _ => [], []⟩

/-- `start()` resolves with the socket handle bound (only the handle presence
matters to the claims settled here). -/
def InterlockSocket.start (s : InterlockSocket) : InterlockSocket :=
  { s with socket := true }

/-- `stop()`: close the socket if present and null the field.  The second
component counts the `socket.close()` calls performed by this call. -/
def InterlockSocket.stop (s : InterlockSocket) : InterlockSocket × Nat :=
  if s.socket then ({ s with socket := false }, 1) else (s, 0)

/-- `on(signalType, handler)`: append to the per-code list
(`existing.push(handler)` on `handlers.get(signalType) || []`). -/
def InterlockSocket.on (s : InterlockSocket) (signalType : Nat) (h : Handler) :
    InterlockSocket :=
  { s with handlers := fun c =>
      if c = signalType then s.handlers c ++ [h] else s.handlers c }

/-- `onAny(handler)`: append to the global list. -/
def InterlockSocket.onAny (s : InterlockSocket) (h : Handler) : InterlockSocket :=
  { s with globalHandlers := s.globalHandlers ++ [h] }

/-- One observed handler invocation: which handler ran, on which message. -/
structure Invocation where
  handlerId : Nat
  message : BaNanoMessage

/-- Run a handler list over a message, as the dispatch loops do: each call is
wrapped in `try { handler(message, rinfo) } catch (error) { log }`, so the
loop records the invocation and continues to the next handler whether or not
the handler throws. -/
def runHandlers (m : BaNanoMessage) : List Handler → List Invocation
  | [] => []
  | h :: rest =>
    if h.throws then
      ⟨h.id, m⟩ :: runHandlers m rest
    else
      ⟨h.id, m⟩ :: runHandlers m rest

/-- `handleMessage(buffer, rinfo)`: decode; a decode failure is logged and
nothing is dispatched; otherwise run the signal-specific handlers, then the
global handlers. -/
def InterlockSocket.handleMessage (s : InterlockSocket) (buffer : List Nat) :
    List Invocation :=
  match decodeMessage buffer with
  | none => []
  | some m =>
    runHandlers m (s.handlers m.signalType) ++ runHandlers m s.globalHandlers

/-- One UDP datagram write performed via `socket.send`. -/
structure DatagramWrite where
  data : List Nat
  port : Nat
  address : String

/-- `send(signalType, payload, port)`: no write when the socket handle is
absent (only a warning is logged); otherwise exactly one datagram to
`127.0.0.1:port`. -/
def InterlockSocket.send (s : InterlockSocket) (signalType : Nat) (payload : Json)
    (port : Nat) (now : Nat) : List DatagramWrite :=
  if s.socket then [⟨encodeMessage signalType payload now, port, "127.0.0.1"⟩]
  else []

/-- `sendToPeer(peerName, signalType, payload)`: `false` and no write for an
unknown name, else `send` to the configured port and `true`. -/
def InterlockSocket.sendToPeer (s : InterlockSocket) (peerName : String)
    (signalType : Nat) (payload : Json) (now : Nat) : Bool × List DatagramWrite :=
  match s.config.peers.find? (fun p => p.name == peerName) with
  | none => (false, [])
  | some peer => (true, s.send signalType payload peer.port now)

/-! ### Registration sequences (for the dispatch-order claim) -/

/-- A handler registration step performed at bootstrap. -/
inductive RegOp where
  | onCode (signalType : Nat) (h : Handler)
  | onAny (h : Handler)

def applyReg (s : InterlockSocket) : RegOp → InterlockSocket
  | .onCode c h => s.on c h
  | .onAny h => s.onAny h

def applyRegs (s : InterlockSocket) (ops : List RegOp) : InterlockSocket :=
  ops.foldl applyReg s

/-- The handlers registered via `on` for code `c`, in registration order. -/
def regsFor (c : Nat) (ops : List RegOp) : List Handler :=
  ops.filterMap fun op =>
    match op with
    | .onCode c' h => if c' = c then some h else none
    | .onAny _ => none

/-- The handlers registered via `onAny`, in registration order. -/
def globalRegs (ops : List RegOp) : List Handler :=
  ops.filterMap fun op =>
    match op with
    | .onCode _ _ => none
    | .onAny h => some h

theorem applyRegs_cons (s : InterlockSocket) (op : RegOp) (ops : List RegOp) :
    applyRegs s (op :: ops) = applyRegs (applyReg s op) ops := rfl

theorem applyRegs_handlers : ∀ (ops : List RegOp) (s : InterlockSocket) (c : Nat),
    (applyRegs s ops).handlers c = s.handlers c ++ regsFor c ops := by
  intro ops
  induction ops with
  | nil => intro s c; simp [applyRegs, regsFor]
  | cons op ops ih =>
    intro s c
    rw [applyRegs_cons, ih]
    cases op with
    | onCode c' h =>
      show (s.on c' h).handlers c ++ regsFor c ops
        = s.handlers c ++ regsFor c (RegOp.onCode c' h :: ops)
      by_cases hc : c = c'
      · subst hc
        simp [InterlockSocket.on, regsFor]
      · have hc' : ¬(c' = c) := fun hcc => hc hcc.symm
        simp [InterlockSocket.on, regsFor, hc, hc']
    | onAny h =>
      show (s.onAny h).handlers c ++ regsFor c ops = s.handlers c ++ regsFor c (RegOp.onAny h :: ops)
      simp [InterlockSocket.onAny, regsFor]

theorem applyRegs_globalHandlers : ∀ (ops : List RegOp) (s : InterlockSocket),
    (applyRegs s ops).globalHandlers = s.globalHandlers ++ globalRegs ops := by
  intro ops
  induction ops with
  | nil => intro s; simp [applyRegs, globalRegs]
  | cons op ops ih =>
    intro s
    rw [applyRegs_cons, ih]
    cases op with
    | onCode c' h =>
      show (s.on c' h).globalHandlers ++ globalRegs ops
        = s.globalHandlers ++ globalRegs (RegOp.onCode c' h :: ops)
      simp [InterlockSocket.on, globalRegs]
    | onAny h =>
      show (s.onAny h).globalHandlers ++ globalRegs ops
        = s.globalHandlers ++ globalRegs (RegOp.onAny h :: ops)
      simp [InterlockSocket.onAny, globalRegs]

theorem runHandlers_map (m : BaNanoMessage) : ∀ hs : List Handler,
    runHandlers m hs = hs.map (fun h => ⟨h.id, m⟩) := by
  intro hs
  induction hs with
  | nil => rfl
  | cons h t ih => by_cases hth : h.throws <;> simp [runHandlers, hth, ih]

/-! ## Claim C4: dispatch order and exclusivity -/

/-- C4.  For every registration sequence applied to a fresh socket and every
datagram that decodes successfully, dispatch invokes exactly the handlers
registered (via `on`) for that exact signal code, in registration order,
followed by all global handlers (via `onAny`) in registration order — and no
others. -/
theorem C4_dispatch_order (cfg : InterlockConfig) (ops : List RegOp)
    (buffer : List Nat) (m : BaNanoMessage)
    (hdec : decodeMessage buffer = some m) :
    (applyRegs (mkInterlockSocket cfg) ops).handleMessage buffer
      = (regsFor m.signalType ops).map (fun h => ⟨h.id, m⟩)
        ++ (globalRegs ops).map (fun h => ⟨h.id, m⟩) := by
  unfold InterlockSocket.handleMessage
  rw [hdec]
  show runHandlers m ((applyRegs (mkInterlockSocket cfg) ops).handlers m.signalType)
      ++ runHandlers m (applyRegs (mkInterlockSocket cfg) ops).globalHandlers = _
  rw [applyRegs_handlers, applyRegs_globalHandlers, runHandlers_map, runHandlers_map]
  simp [mkInterlockSocket]

/-- Witness for C4: a 12-byte datagram carrying signal `0xC0`, two per-code
handlers and one global handler. -/
theorem C4_dispatch_order_witness :
    decodeMessage [0xC0, 0, 1, 0, 0, 0, 0, 0, 1, 2, 3, 4]
        = some ⟨0xC0, 1, 67305985, Json.null⟩
      ∧ (applyRegs (mkInterlockSocket ⟨3033, []⟩)
            [RegOp.onCode 0xC0 ⟨1, false⟩, RegOp.onCode 0xC0 ⟨2, false⟩,
              RegOp.onAny ⟨3, false⟩]).handleMessage
            [0xC0, 0, 1, 0, 0, 0, 0, 0, 1, 2, 3, 4]
        = (regsFor 0xC0 [RegOp.onCode 0xC0 ⟨1, false⟩, RegOp.onCode 0xC0 ⟨2, false⟩,
              RegOp.onAny ⟨3, false⟩]).map
              (fun h => ⟨h.id, ⟨0xC0, 1, 67305985, Json.null⟩⟩)
            ++ (globalRegs [RegOp.onCode 0xC0 ⟨1, false⟩, RegOp.onCode 0xC0 ⟨2, false⟩,
              RegOp.onAny ⟨3, false⟩]).map
              (fun h => ⟨h.id, ⟨0xC0, 1, 67305985, Json.null⟩⟩) :=
  ⟨rfl, C4_dispatch_order ⟨3033, []⟩ _ _ ⟨0xC0, 1, 67305985, Json.null⟩ rfl⟩

/-! ## Claim C5: a throwing handler does not block later handlers -/

/-- The full dispatch list for a message: per-code handlers then global
handlers. -/
def dispatchList (s : InterlockSocket) (m : BaNanoMessage) : List Handler :=
  s.handlers m.signalType ++ s.globalHandlers

/-- C5.  For every received message, even when an earlier handler in the
dispatch list throws, every later handler is still invoked for that
message (the `try`/`catch` around each call isolates failures). -/
theorem C5_throwing_handler_does_not_block (s : InterlockSocket)
    (buffer : List Nat) (m : BaNanoMessage)
    (hdec : decodeMessage buffer = some m)
    (i j : Nat) (hij : i < j) (hj : j < (dispatchList s m).length)
    (hthrow : ((dispatchList s m).get ⟨i, lt_trans hij hj⟩).throws = true) :
    (⟨((dispatchList s m).get ⟨j, hj⟩).id, m⟩ : Invocation)
      ∈ s.handleMessage buffer := by
  unfold InterlockSocket.handleMessage
  rw [hdec]
  have hmap : runHandlers m (s.handlers m.signalType) ++ runHandlers m s.globalHandlers
      = (dispatchList s m).map (fun h => ⟨h.id, m⟩) := by
    rw [runHandlers_map, runHandlers_map, ← List.map_append]
    rfl
  show _ ∈ runHandlers m (s.handlers m.signalType) ++ runHandlers m s.globalHandlers
  rw [hmap]
  exact List.mem_map_of_mem _ (List.get_mem _ _ _)

/-- Witness for C5: first per-code handler throws, the second per-code
handler and the global handler still run. -/
theorem C5_throwing_handler_does_not_block_witness :
    decodeMessage [0xC0, 0, 1, 0, 0, 0, 0, 0, 1, 2, 3, 4]
        = some ⟨0xC0, 1, 67305985, Json.null⟩
      ∧ (0 : Nat) < 1
      ∧ 1 < (dispatchList
          ⟨true, ⟨3033, []⟩, fun c => if c = 0xC0 then [⟨1, true⟩, ⟨2, false⟩] else [],
            [⟨3, false⟩]⟩ ⟨0xC0, 1, 67305985, Json.null⟩).length
      ∧ (⟨2, ⟨0xC0, 1, 67305985, Json.null⟩⟩ : Invocation)
          ∈ InterlockSocket.handleMessage
              ⟨true, ⟨3033, []⟩, fun c => if c = 0xC0 then [⟨1, true⟩, ⟨2, false⟩] else [],
                [⟨3, false⟩]⟩
              [0xC0, 0, 1, 0, 0, 0, 0, 0, 1, 2, 3, 4] :=
  ⟨rfl, by norm_num, by
      show (1 : Nat) < 3
      norm_num,
    C5_throwing_handler_does_not_block
      ⟨true, ⟨3033, []⟩, fun c => if c = 0xC0 then [⟨1, true⟩, ⟨2, false⟩] else [],
        [⟨3, false⟩]⟩
      [0xC0, 0, 1, 0, 0, 0, 0, 0, 1, 2, 3, 4] ⟨0xC0, 1, 67305985, Json.null⟩ rfl
      0 1 (by norm_num) (by show (1 : Nat) < 3; norm_num) rfl⟩

/-! ## Claim C6: sendToPeer (corrected: one write only when started) -/

/-- C6 counterexample.  With a configured peer but the socket not started
(`socket === null`), `sendToPeer` still returns `true` yet performs zero
writes — the claim asserts exactly one write whenever the name is
configured. -/
theorem C6_counterexample :
    InterlockSocket.sendToPeer
        ⟨false, ⟨3033, [⟨"experience-layer", 4200⟩]⟩, fun _ => [], []⟩
        "experience-layer" 0xC0 Json.null 0
      = (true, []) := rfl

/-- C6 (amended).  `sendToPeer` returns `false` with zero writes when no
configured peer has the given name; with a configured name it returns `true`
and performs exactly one write — addressed to the configured peer's port on
`127.0.0.1` — when the socket handle is present, and zero writes (still
returning `true`) when it is not. -/
theorem C6_sendToPeer (s : InterlockSocket) (peerName : String)
    (signalType : Nat) (payload : Json) (now : Nat) :
    (s.config.peers.find? (fun p => p.name == peerName) = none →
      s.sendToPeer peerName signalType payload now = (false, []))
    ∧ (∀ peer, s.config.peers.find? (fun p => p.name == peerName) = some peer →
        s.socket = true →
        s.sendToPeer peerName signalType payload now
          = (true, [⟨encodeMessage signalType payload now, peer.port, "127.0.0.1"⟩]))
    ∧ (∀ peer, s.config.peers.find? (fun p => p.name == peerName) = some peer →
        s.socket = false →
        s.sendToPeer peerName signalType payload now = (true, [])) := by
  refine ⟨?_, ?_, ?_⟩
  · intro hnone
    unfold InterlockSocket.sendToPeer
    rw [hnone]
  · intro peer hsome hsock
    unfold InterlockSocket.sendToPeer
    rw [hsome]
    unfold InterlockSocket.send
    rw [hsock]
    rfl
  · intro peer hsome hsock
    unfold InterlockSocket.sendToPeer
    rw [hsome]
    unfold InterlockSocket.send
    rw [hsock]
    rfl

/-- Witness for C6: a started socket with one configured peer writes exactly
one datagram to that peer's port; an unknown name writes nothing. -/
theorem C6_sendToPeer_witness :
    (InterlockSocket.config
        ⟨true, ⟨3033, [⟨"experience-layer", 4200⟩]⟩, fun _ => [], []⟩).peers.find?
          (fun p => p.name == "experience-layer") = some ⟨"experience-layer", 4200⟩
      ∧ InterlockSocket.socket
          ⟨true, ⟨3033, [⟨"experience-layer", 4200⟩]⟩, fun _ => [], []⟩ = true
      ∧ InterlockSocket.sendToPeer
          ⟨true, ⟨3033, [⟨"experience-layer", 4200⟩]⟩, fun _ => [], []⟩
          "experience-layer" 0xC0 Json.null 0
        = (true, [⟨encodeMessage 0xC0 Json.null 0, 4200, "127.0.0.1"⟩])
      ∧ InterlockSocket.sendToPeer
          ⟨true, ⟨3033, [⟨"experience-layer", 4200⟩]⟩, fun _ => [], []⟩
          "nobody" 0xC0 Json.null 0 = (false, []) :=
  ⟨rfl, rfl,
    (C6_sendToPeer ⟨true, ⟨3033, [⟨"experience-layer", 4200⟩]⟩, fun _ => [], []⟩
      "experience-layer" 0xC0 Json.null 0).2.1 ⟨"experience-layer", 4200⟩ rfl rfl,
    (C6_sendToPeer ⟨true, ⟨3033, [⟨"experience-layer", 4200⟩]⟩, fun _ => [], []⟩
      "nobody" 0xC0 Json.null 0).1 rfl⟩

/-! ## Tumbler (`src/interlock/tumbler.ts`) -/

structure TumblerConfig where
  whitelist : List Nat
  logRejected : Bool

/-- `DEFAULT_CONFIG` from `tumbler.ts`. -/
def DEFAULT_CONFIG : TumblerConfig :=
  ⟨[SIGNALS.BUILD_STARTED, SIGNALS.INSPECTION_REQUESTED,
    SIGNALS.PRE_INSPECTION_REQUESTED, SIGNALS.SKILL_VALIDATION_REQUESTED,
    SIGNALS.PROMPT_VALIDATION_REQUESTED], false⟩

structure Tumbler where
  config : TumblerConfig
  rejectedCount : Nat

/-- `new Tumbler(config)`: `{ ...DEFAULT_CONFIG, ...config }` with a
`Partial<TumblerConfig>` argument, rejection counter starting at 0. -/
def mkTumbler (whitelist : Option (List Nat)) (logRejected : Option Bool) : Tumbler :=
  ⟨⟨whitelist.getD DEFAULT_CONFIG.whitelist,
    logRejected.getD DEFAULT_CONFIG.logRejected⟩, 0⟩

/-- `isAllowed(signalType)`: the returned flag together with the updated
state — the rejection counter increments only on a rejected call with
`logRejected` set. -/
def Tumbler.isAllowed (t : Tumbler) (signalType : Nat) : Bool × Tumbler :=
  if !(t.config.whitelist.contains signalType) && t.config.logRejected then
    (t.config.whitelist.contains signalType,
      { t with rejectedCount := t.rejectedCount + 1 })
  else (t.config.whitelist.contains signalType, t)

/-- `allow(signalType)`: push onto the whitelist unless already present. -/
def Tumbler.allow (t : Tumbler) (signalType : Nat) : Tumbler :=
  if t.config.whitelist.contains signalType then t
  else { t with config :=
    { t.config with whitelist := t.config.whitelist ++ [signalType] } }

/-- `deny(signalType)`: filter the signal out of the whitelist. -/
def Tumbler.deny (t : Tumbler) (signalType : Nat) : Tumbler :=
  { t with config :=
    { t.config with whitelist := t.config.whitelist.filter (fun s => s != signalType) } }

/-- `getWhitelist()` returns (a copy of) the whitelist value; aliasing is
modelled separately through `TumblerRef`. -/
def Tumbler.getWhitelist (t : Tumbler) : List Nat := t.config.whitelist

/-- `getStats()`: whitelist size and rejection count. -/
def Tumbler.getStats (t : Tumbler) : Nat × Nat :=
  (t.config.whitelist.length, t.rejectedCount)

/-- `resetStats()`. -/
def Tumbler.resetStats (t : Tumbler) : Tumbler := { t with rejectedCount := 0 }

/-! ### A store model for the array-aliasing part of C7

JavaScript arrays are heap references; `getWhitelist()` returns
`[...this.config.whitelist]`, a fresh array.  To state that mutating the
returned array cannot affect the filter, arrays live in a store (indexed by
allocation order) and the tumbler holds a reference. -/

/-- A tumbler whose whitelist array lives in a store. -/
structure TumblerRef where
  whitelistRef : Nat
  logRejected : Bool
  rejectedCount : Nat

/-- Read an array out of the store. -/
def readArr (store : List (List Nat)) (r : Nat) : List Nat := store.getD r []

/-- Overwrite (mutate) the array behind reference `r`. -/
def writeArr (store : List (List Nat)) (r : Nat) (v : List Nat) : List (List Nat) :=
  store.set r v

/-- `isAllowed` reading the whitelist through its reference. -/
def TumblerRef.isAllowedIn (t : TumblerRef) (store : List (List Nat))
    (signalType : Nat) : Bool :=
  (readArr store t.whitelistRef).contains signalType

/-- `getWhitelist()` = `[...this.config.whitelist]`: allocate a fresh array
holding a copy of the whitelist and return the new reference and store. -/
def TumblerRef.getWhitelistIn (t : TumblerRef) (store : List (List Nat)) :
    Nat × List (List Nat) :=
  (store.length, store ++ [readArr store t.whitelistRef])

theorem contains_append_singleton (wl : List Nat) (c : Nat) :
    (wl ++ [c]).contains c = true := by
  induction wl with
  | nil => simp
  | cons a t ih => simp [ih]

theorem contains_filter_ne (wl : List Nat) (c : Nat) :
    (wl.filter (fun s => s != c)).contains c = false := by
  have h : c ∉ wl.filter (fun s => s != c) := by
    intro hc
    have hp := List.of_mem_filter hc
    simp at hp
  simpa using h

theorem Tumbler.isAllowed_fst (t : Tumbler) (c : Nat) :
    (t.isAllowed c).1 = t.config.whitelist.contains c := by
  unfold Tumbler.isAllowed
  by_cases h : !(t.config.whitelist.contains c) && t.config.logRejected
  · rw [if_pos h]
  · rw [if_neg h]

theorem filter_ne_idem (wl : List Nat) (c : Nat) :
    (wl.filter (fun s => s != c)).filter (fun s => s != c)
      = wl.filter (fun s => s != c) := by
  rw [List.filter_filter]
  congr 1
  funext a
  exact Bool.and_self _

theorem getD_set_ne : ∀ (l : List (List Nat)) (i j : Nat) (v : List Nat), i ≠ j →
    (l.set i v).getD j [] = l.getD j [] := by
  intro l
  induction l with
  | nil => intro i j v _; rfl
  | cons a t ih =>
    intro i j v h
    cases i with
    | zero =>
      cases j with
      | zero => exact absurd rfl h
      | succ j2 => rfl
    | succ i2 =>
      cases j with
      | zero => rfl
      | succ j2 => exact ih i2 j2 v (fun he => h (by rw [he]))

theorem getD_append_left : ∀ (l1 l2 : List (List Nat)) (i : Nat), i < l1.length →
    (l1 ++ l2).getD i [] = l1.getD i [] := by
  intro l1
  induction l1 with
  | nil => intro l2 i h; simp at h
  | cons a t ih =>
    intro l2 i h
    cases i with
    | zero => rfl
    | succ i2 => exact ih l2 i2 (by simpa using h)

/-! ## Claim C7: whitelist operations -/

/-- C7.  `allow(c)` makes `isAllowed(c)` true; `deny(c)` makes it false; both
are idempotent; and mutating the array returned by `getWhitelist()` (a fresh
copy in the store model) never changes the result of any subsequent
`isAllowed` call. -/
theorem C7_whitelist_operations (t : Tumbler) (c : Nat) (tr : TumblerRef)
    (store : List (List Nat)) (hv : tr.whitelistRef < store.length) :
    (((t.allow c).isAllowed c).1 = true)
    ∧ (((t.deny c).isAllowed c).1 = false)
    ∧ ((t.allow c).allow c = t.allow c)
    ∧ ((t.deny c).deny c = t.deny c)
    ∧ (∀ (mutated : List Nat) (x : Nat),
        tr.isAllowedIn
            (writeArr (tr.getWhitelistIn store).2 (tr.getWhitelistIn store).1 mutated) x
          = tr.isAllowedIn store x) := by
  refine ⟨?_, ?_, ?_, ?_, ?_⟩
  · rw [Tumbler.isAllowed_fst]
    unfold Tumbler.allow
    by_cases hmem : t.config.whitelist.contains c
    · rw [if_pos hmem]
      exact hmem
    · rw [if_neg hmem]
      exact contains_append_singleton t.config.whitelist c
  · rw [Tumbler.isAllowed_fst]
    unfold Tumbler.deny
    exact contains_filter_ne t.config.whitelist c
  · unfold Tumbler.allow
    by_cases hmem : t.config.whitelist.contains c
    · rw [if_pos hmem, if_pos hmem]
    · rw [if_neg hmem]
      simp [contains_append_singleton]
  · simp only [Tumbler.deny]
    rw [filter_ne_idem]
  · intro mutated x
    unfold TumblerRef.isAllowedIn TumblerRef.getWhitelistIn writeArr readArr
    have hne : store.length ≠ tr.whitelistRef := by omega
    rw [getD_set_ne _ _ _ _ hne, getD_append_left _ _ _ hv]

/-- Witness for C7 at concrete inputs. -/
theorem C7_whitelist_operations_witness :
    (0 : Nat) < 1
      ∧ (((Tumbler.allow (mkTumbler (some []) none) 5).isAllowed 5).1 = true)
      ∧ (((Tumbler.deny (mkTumbler (some [5]) none) 5).isAllowed 5).1 = false)
      ∧ (∀ (mutated : List Nat) (x : Nat),
          TumblerRef.isAllowedIn ⟨0, false, 0⟩
              (writeArr (TumblerRef.getWhitelistIn ⟨0, false, 0⟩ [[1, 2]]).2
                (TumblerRef.getWhitelistIn ⟨0, false, 0⟩ [[1, 2]]).1 mutated) x
            = TumblerRef.isAllowedIn ⟨0, false, 0⟩ [[1, 2]] x) :=
  ⟨by norm_num,
    (C7_whitelist_operations (mkTumbler (some []) none) 5 ⟨0, false, 0⟩ [[1, 2]]
      (by norm_num)).1,
    (C7_whitelist_operations (mkTumbler (some [5]) none) 5 ⟨0, false, 0⟩ [[1, 2]]
      (by norm_num)).2.1,
    (C7_whitelist_operations (mkTumbler (some []) none) 5 ⟨0, false, 0⟩ [[1, 2]]
      (by norm_num)).2.2.2.2⟩

/-! ## Claim C10: the rejection counter with logRejected off -/

/-- One observable Tumbler call, for quantifying over call sequences. -/
inductive TumblerOp where
  | isAllowed (signalType : Nat)
  | allow (signalType : Nat)
  | deny (signalType : Nat)
  | getWhitelist
  | getStats

/-- The state transition of one call (observations return the state
unchanged). -/
def Tumbler.step (t : Tumbler) : TumblerOp → Tumbler
  | .isAllowed c => (t.isAllowed c).2
  | .allow c => t.allow c
  | .deny c => t.deny c
  | .getWhitelist => t
  | .getStats => t

def Tumbler.runOps (t : Tumbler) (ops : List TumblerOp) : Tumbler :=
  ops.foldl Tumbler.step t

theorem Tumbler.step_preserves (t : Tumbler) (op : TumblerOp)
    (h : t.config.logRejected = false) :
    (t.step op).config.logRejected = false
      ∧ (t.step op).rejectedCount = t.rejectedCount := by
  cases op with
  | isAllowed c => simp [Tumbler.step, Tumbler.isAllowed, h]
  | allow c =>
    show (t.allow c).config.logRejected = false
      ∧ (t.allow c).rejectedCount = t.rejectedCount
    unfold Tumbler.allow
    by_cases hmem : t.config.whitelist.contains c
    · rw [if_pos hmem]
      exact ⟨h, rfl⟩
    · rw [if_neg hmem]
      exact ⟨h, rfl⟩
  | deny c => simp [Tumbler.step, Tumbler.deny, h]
  | getWhitelist => exact ⟨h, rfl⟩
  | getStats => exact ⟨h, rfl⟩

theorem Tumbler.runOps_preserves : ∀ (ops : List TumblerOp) (t : Tumbler),
    t.config.logRejected = false →
    (t.runOps ops).rejectedCount = t.rejectedCount := by
  intro ops
  induction ops with
  | nil => intro t _; rfl
  | cons op ops ih =>
    intro t h
    obtain ⟨h1, h2⟩ := Tumbler.step_preserves t op h
    show ((t.step op).runOps ops).rejectedCount = t.rejectedCount
    rw [ih (t.step op) h1, h2]

/-- C10.  A Tumbler constructed with `logRejected` false (explicitly or by
default) never increments the rejection counter: after any sequence of
`isAllowed`/`allow`/`deny`/`getWhitelist`/`getStats` calls, `getStats()`
reports `rejectedCount = 0`.  Moreover the counter increments exactly on a
rejected `isAllowed` call with `logRejected` true. -/
theorem C10_rejection_counter (wl : Option (List Nat)) (lr : Option Bool)
    (ops : List TumblerOp) (hlr : (mkTumbler wl lr).config.logRejected = false) :
    (((mkTumbler wl lr).runOps ops).getStats.2 = 0)
    ∧ (∀ (t : Tumbler) (c : Nat),
        ((t.isAllowed c).2).rejectedCount
          = if (t.isAllowed c).1 = false ∧ t.config.logRejected = true
            then t.rejectedCount + 1 else t.rejectedCount)
    ∧ (∀ (t : Tumbler) (c : Nat),
        (t.allow c).rejectedCount = t.rejectedCount
          ∧ (t.deny c).rejectedCount = t.rejectedCount) := by
  refine ⟨?_, ?_, ?_⟩
  · show ((mkTumbler wl lr).runOps ops).rejectedCount = 0
    rw [Tumbler.runOps_preserves ops _ hlr]
    rfl
  · intro t c
    unfold Tumbler.isAllowed
    by_cases hmem : t.config.whitelist.contains c
    · rw [hmem]
      simp
    · simp only [Bool.not_eq_true] at hmem
      rw [hmem]
      by_cases hlog : t.config.logRejected
      · rw [hlog]
        simp
      · simp only [Bool.not_eq_true] at hlog
        rw [hlog]
        simp
  · intro t c
    refine ⟨?_, rfl⟩
    unfold Tumbler.allow
    by_cases hmem : t.config.whitelist.contains c
    · rw [if_pos hmem]
    · rw [if_neg hmem]

/-- Witness for C10: default construction (logRejected defaults to false),
a sequence with rejected lookups keeps the counter at 0. -/
theorem C10_rejection_counter_witness :
    ((mkTumbler none none).config.logRejected = false)
      ∧ (((mkTumbler none none).runOps
          [TumblerOp.isAllowed 1, TumblerOp.deny 0xC0, TumblerOp.isAllowed 0xC0,
            TumblerOp.getStats]).getStats.2 = 0) :=
  ⟨rfl, (C10_rejection_counter none none
      [TumblerOp.isAllowed 1, TumblerOp.deny 0xC0, TumblerOp.isAllowed 0xC0,
        TumblerOp.getStats] rfl).1⟩

/-! ## Claim C8: dispatch never consults the Tumbler whitelist -/

/-- The per-process InterLock state composed at startup in `src/index.ts`:
the mesh socket and the Tumbler built from configuration. -/
structure InspectorNode where
  socket : InterlockSocket
  tumbler : Tumbler

/-- The node's inbound path: the UDP `message` event calls
`handleMessage`, which never reads the tumbler. -/
def InspectorNode.dispatch (n : InspectorNode) (buffer : List Nat) :
    List Invocation :=
  n.socket.handleMessage buffer

/-- C8.  Inbound dispatch does not consult the Tumbler whitelist: for every
received datagram, the invoked handlers (and their arguments) are identical
under any two whitelist states — admission is gated only by handler
registration. -/
theorem C8_dispatch_ignores_whitelist (sock : InterlockSocket) (t1 t2 : Tumbler)
    (buffer : List Nat) :
    InspectorNode.dispatch ⟨sock, t1⟩ buffer
      = InspectorNode.dispatch ⟨sock, t2⟩ buffer := rfl

/-! ## Claim C9: stop is idempotent and closes at most once -/

/-- C9.  `stop()` leaves the socket field null, performs at most one close,
performs no close when the handle is already absent (before `start()` or
after a previous `stop()`), and a second `stop()` never closes again. -/
theorem C9_stop_idempotent (s : InterlockSocket) :
    ((s.stop).1.socket = false)
    ∧ ((s.stop).2 ≤ 1)
    ∧ (s.socket = false → (s.stop).2 = 0)
    ∧ (((s.stop).1.stop).2 = 0)
    ∧ (∀ cfg : InterlockConfig, ((mkInterlockSocket cfg).stop).2 = 0) := by
  unfold InterlockSocket.stop mkInterlockSocket
  by_cases h : s.socket <;> simp [h]

/-- Witness for C9 on a started socket. -/
theorem C9_stop_idempotent_witness :
    ((InterlockSocket.stop ⟨true, ⟨3033, []⟩, fun _ => [], []⟩).1.socket = false)
      ∧ ((InterlockSocket.stop ⟨true, ⟨3033, []⟩, fun _ => [], []⟩).2 ≤ 1)
      ∧ (((InterlockSocket.stop ⟨true, ⟨3033, []⟩, fun _ => [], []⟩).1.stop).2 = 0) :=
  ⟨(C9_stop_idempotent ⟨true, ⟨3033, []⟩, fun _ => [], []⟩).1,
    (C9_stop_idempotent ⟨true, ⟨3033, []⟩, fun _ => [], []⟩).2.1,
    (C9_stop_idempotent ⟨true, ⟨3033, []⟩, fun _ => [], []⟩).2.2.2.1⟩

end LinusInspector
